import Mathlib

/-!
Verification of the topology-assembly logic of `neel_stack.py`.

The repository declares one cloud topology: a VPC with a public and a
private-with-egress tier, a security group allowing HTTP, one EC2 instance
behind an internal network load balancer, a VPC link bridging an API-gateway
proxy route to that load balancer, and two stack outputs (the AMI id and the
API endpoint URL).

The assembly semantics (validation, error taxonomy, entity lifecycle,
late-bound attributes) are those of the external toolkit the stack calls
into; they are modelled here from the specification, while every concrete
configuration value (tier masks, ports, health-check policy, the resource
path, the integration URI, the outputs) is transcribed from the source.
-/

/-- Error taxonomy of the assembly process: invalid static configuration,
a dangling or foreign cross-entity reference, and mutation after
finalization. -/
inductive AsmError
  | configError
  | referenceError
  | immutableStateError
deriving DecidableEq

/-- Modelled from the spec: the per-entity lifecycle
`Declared → Linked → Finalized`. -/
inductive Phase
  | declared
  | linked
  | finalized
deriving DecidableEq

/-- Numeric index of a phase, used to express forward-only transitions. -/
def Phase.idx : Phase → Nat
  | .declared => 0
  | .linked => 1
  | .finalized => 2

/-- Modelled from the spec: a late-bound attribute — a typed placeholder
holding either an unresolved marker or a resolved immutable value. -/
inductive Deferred (α : Type)
  | unresolved
  | resolved (val : α)
deriving DecidableEq

/-- Reading a deferred value before resolution fails with `ReferenceError`. -/
def Deferred.read {α : Type} : Deferred α → Except AsmError α
  | .unresolved => .error .referenceError
  | .resolved v => .ok v

/-- Resolution happens exactly once; a value already resolved is immutable
and keeps its first value. -/
def Deferred.resolve {α : Type} : Deferred α → α → Deferred α
  | .unresolved, v => .resolved v
  | .resolved v, _ => .resolved v

/-- Subnet tier kinds used by the stack (source lines 23 and 28). -/
inductive SubnetType
  | public
  | privateWithEgress
deriving DecidableEq

/-- One requested subnet tier: type, cidr mask and name
(source `ec2.SubnetConfiguration`). -/
structure TierConfig where
  subnetType : SubnetType
  cidrMask : Nat
  name : String
deriving DecidableEq

/-- A tier with its assigned address range `[rangeStart, rangeStart+rangeSize)`. -/
structure SubnetTier where
  config : TierConfig
  rangeStart : Nat
  rangeSize : Nat
deriving DecidableEq

/-- The isolated address space with its subnet tiers. -/
structure Network where
  id : Nat
  cidrBase : Nat
  cidrSize : Nat
  tiers : List SubnetTier
deriving DecidableEq

/-- Number of addresses a tier of the given mask occupies. -/
def tierSize (mask : Nat) : Nat := 2 ^ (32 - mask)

/-- Modelled from the spec: tiers are assigned non-overlapping address
ranges sequentially, in declaration order. -/
def assignTiers (start : Nat) : List TierConfig → List SubnetTier
  | [] => []
  | t :: ts => ⟨t, start, tierSize t.cidrMask⟩ :: assignTiers (start + tierSize t.cidrMask) ts

/-- A mask is valid when it lies in `[16, 28]`. -/
def maskValid (m : Nat) : Bool := decide (16 ≤ m) && decide (m ≤ 28)

/-- Total address space requested by a tier list. -/
def totalTierSize (ts : List TierConfig) : Nat :=
  (ts.map (fun t => tierSize t.cidrMask)).sum

/-- Base address of the network block (10.0.0.0, the toolkit default). -/
def vpcCidrBase : Nat := 10 * 2 ^ 24

/-- Size of the network address block (a `/16`, the toolkit default). -/
def vpcCidrSize : Nat := 2 ^ 16

theorem assignTiers_map_config (start : Nat) (ts : List TierConfig) :
    (assignTiers start ts).map SubnetTier.config = ts := by
  induction ts generalizing start with
  | nil => rfl
  | cons t ts ih => simp [assignTiers, ih]

theorem assignTiers_start_le (start : Nat) (ts : List TierConfig) :
    ∀ x ∈ assignTiers start ts, start ≤ x.rangeStart := by
  induction ts generalizing start with
  | nil => intro x hx; cases hx
  | cons t ts ih =>
    intro x hx
    rcases List.mem_cons.mp hx with rfl | hx
    · simp
    · exact le_trans (Nat.le_add_right _ _) (ih _ _ hx)

theorem assignTiers_range_le (start : Nat) (ts : List TierConfig) :
    ∀ x ∈ assignTiers start ts,
      x.rangeStart + x.rangeSize ≤ start + totalTierSize ts := by
  induction ts generalizing start with
  | nil => intro x hx; cases hx
  | cons t ts ih =>
    intro x hx
    rcases List.mem_cons.mp hx with rfl | hx
    · simp only [totalTierSize, List.map_cons, List.sum_cons]
      omega
    · have := ih (start + tierSize t.cidrMask) x hx
      simp only [totalTierSize, List.map_cons, List.sum_cons] at this ⊢
      omega

theorem assignTiers_chain (start : Nat) (ts : List TierConfig) :
    (assignTiers start ts).Pairwise
      (fun a b => a.rangeStart + a.rangeSize ≤ b.rangeStart) := by
  induction ts generalizing start with
  | nil => exact List.Pairwise.nil
  | cons t ts ih =>
    refine List.Pairwise.cons ?_ (ih _)
    intro x hx
    exact assignTiers_start_le _ _ x hx

/-- One ingress rule of a security group (source line 54). -/
structure IngressRule where
  source : String
  protocol : String
  port : Nat
  description : String
deriving DecidableEq

/-- A mutable allow-list of traffic rules scoped to a network. -/
structure SecurityGroup where
  id : Nat
  networkId : Nat
  description : String
  allowAllOutbound : Bool
  ingressRules : List IngressRule
deriving DecidableEq

/-- A provisioned virtual machine (source `ec2.Instance`). -/
structure ComputeInstance where
  id : Nat
  networkId : Nat
  instanceType : String
  machineImage : String
  securityGroupId : Nat
  placementTier : SubnetType
  bootScript : String
deriving DecidableEq

/-- The internal traffic distributor (source `elbv2.NetworkLoadBalancer`). -/
structure LoadBalancer where
  id : Nat
  networkId : Nat
  internetFacing : Bool
  crossZoneEnabled : Bool
  listenerIds : List Nat
deriving DecidableEq

/-- Health-check policy stored as declared (source `elbv2.HealthCheck`). -/
structure HealthCheck where
  path : String
  port : String
  protocol : String
  intervalSecs : Nat
  timeoutSecs : Nat
deriving DecidableEq

/-- A bound port on a load balancer (source `nlb.add_listener`). -/
structure Listener where
  id : Nat
  loadBalancerId : Nat
  port : Nat
  targetGroupId : Option Nat
deriving DecidableEq

/-- A routable pool with health semantics (source `listener_80.add_targets`). -/
structure TargetGroup where
  id : Nat
  listenerId : Nat
  port : Nat
  targetInstanceIds : List Nat
  healthCheck : HealthCheck
deriving DecidableEq

/-- The private link from the gateway tier to load balancers
(source `apigw.VpcLink`). -/
structure ConnectivityBridge where
  id : Nat
  targetLbIds : List Nat
deriving DecidableEq

/-- Integration kinds of the gateway toolkit (`apigw.IntegrationType`). -/
inductive IntegrationType
  | aws
  | awsProxy
  | http
  | httpProxy
  | mock
deriving DecidableEq

/-- Connection kinds of the gateway toolkit (`apigw.ConnectionType`). -/
inductive ConnectionType
  | internet
  | vpcLink
deriving DecidableEq

/-- The public HTTP entry point forwarding to a backend URI; `uriHead` is
the literal part of the URI and `backendDns` the late-bound remainder
(source `apigw.Integration` with `uri` built from the load balancer's
DNS name). -/
structure ProxyRoute where
  id : Nat
  path : String
  httpMethod : String
  integrationType : IntegrationType
  connectionType : ConnectionType
  bridgeId : Nat
  backendLbId : Nat
  uriHead : String
  backendDns : Deferred String
deriving DecidableEq

/-- A named stack output: a literal value or the late-bound API URL
(source `CfnOutput`). -/
inductive OutputValue
  | literal (s : String)
  | apiUrl
deriving DecidableEq

/-- The assembly context: every entity created so far, the named outputs,
the lifecycle phase of each entity and whether the graph was handed to the
backend. -/
structure AssemblyState where
  nextId : Nat
  networks : List Network
  securityGroups : List SecurityGroup
  instances : List ComputeInstance
  loadBalancers : List LoadBalancer
  listeners : List Listener
  targetGroups : List TargetGroup
  bridges : List ConnectivityBridge
  proxyRoutes : List ProxyRoute
  outputs : List (String × OutputValue)
  phases : List (Nat × Phase)
  finalized : Bool
deriving DecidableEq

/-- The fresh context at the start of assembly. -/
def emptyState : AssemblyState := ⟨0, [], [], [], [], [], [], [], [], [], [], false⟩

/-- Lifecycle phase of the entity with the given id. -/
def phaseOf (s : AssemblyState) (i : Nat) : Option Phase :=
  (s.phases.find? (fun p => p.1 == i)).map Prod.snd

def findNetwork (s : AssemblyState) (i : Nat) : Option Network :=
  s.networks.find? (fun n => n.id == i)

def findSecurityGroup (s : AssemblyState) (i : Nat) : Option SecurityGroup :=
  s.securityGroups.find? (fun g => g.id == i)

def findInstance (s : AssemblyState) (i : Nat) : Option ComputeInstance :=
  s.instances.find? (fun x => x.id == i)

def findLoadBalancer (s : AssemblyState) (i : Nat) : Option LoadBalancer :=
  s.loadBalancers.find? (fun l => l.id == i)

def findListener (s : AssemblyState) (i : Nat) : Option Listener :=
  s.listeners.find? (fun l => l.id == i)

def findBridge (s : AssemblyState) (i : Nat) : Option ConnectivityBridge :=
  s.bridges.find? (fun b => b.id == i)

/-- Modelled from the spec: `createNetwork(config) → Network`. Fails with
`ConfigError` when the tier list is empty, a mask falls outside `[16, 28]`,
or the requested tiers do not fit the network's address block; otherwise
appends a network whose tiers get disjoint ranges in declaration order. -/
def createNetwork (s : AssemblyState) (cfg : List TierConfig) :
    Except AsmError (Nat × AssemblyState) :=
  if s.finalized then .error .immutableStateError
  else if cfg.isEmpty then .error .configError
  else if !(cfg.all (fun t => maskValid t.cidrMask)) then .error .configError
  else if !(decide (totalTierSize cfg ≤ vpcCidrSize)) then .error .configError
  else
    let nid := s.nextId
    .ok (nid, { s with
      nextId := nid + 1,
      networks := s.networks ++
        [⟨nid, vpcCidrBase, vpcCidrSize, assignTiers vpcCidrBase cfg⟩],
      phases := s.phases ++ [(nid, Phase.declared)] })

/-- Modelled from the spec: `createSecurityGroup(network, policy)`; the
owning network must already exist. -/
def createSecurityGroup (s : AssemblyState) (netId : Nat) (description : String)
    (allowAllOutbound : Bool) : Except AsmError (Nat × AssemblyState) :=
  if s.finalized then .error .immutableStateError
  else match findNetwork s netId with
  | none => .error .referenceError
  | some _ =>
    let gid := s.nextId
    .ok (gid, { s with
      nextId := gid + 1,
      securityGroups := s.securityGroups ++ [⟨gid, netId, description, allowAllOutbound, []⟩],
      phases := s.phases ++ [(gid, Phase.declared)] })

/-- The security-group list after appending one rule to the group `gid`. -/
def addRuleToGroups (l : List SecurityGroup) (gid : Nat) (rule : IngressRule) :
    List SecurityGroup :=
  l.map (fun g => if g.id == gid
    then { g with ingressRules := g.ingressRules ++ [rule] } else g)

/-- Modelled from the spec: `addIngressRule(group, source, port, protocol,
description)`. Fails with `ReferenceError` on a group that was never
created, with `ImmutableStateError` on a finalized group; otherwise appends
the rule (duplicates are additive). -/
def addIngressRule (s : AssemblyState) (gid : Nat) (rule : IngressRule) :
    Except AsmError AssemblyState :=
  if phaseOf s gid = some Phase.finalized then .error .immutableStateError
  else match findSecurityGroup s gid with
  | none => .error .referenceError
  | some _ => .ok { s with
      securityGroups := addRuleToGroups s.securityGroups gid rule }

/-- Modelled from the spec: `createInstance(network, tier, image,
securityGroup, bootScript)`. The tier must be one of the network's declared
tiers and the group must belong to the same network; the boot script is
stored verbatim. -/
def createInstance (s : AssemblyState) (netId : Nat) (tier : SubnetType)
    (instanceType machineImage : String) (sgId : Nat) (bootScript : String) :
    Except AsmError (Nat × AssemblyState) :=
  if s.finalized then .error .immutableStateError
  else match findNetwork s netId with
  | none => .error .referenceError
  | some net => match findSecurityGroup s sgId with
    | none => .error .referenceError
    | some sg =>
      if !(decide (tier ∈ net.tiers.map (fun t => t.config.subnetType))) then
        .error .referenceError
      else if !(sg.networkId == netId) then .error .referenceError
      else
        let iid := s.nextId
        .ok (iid, { s with
          nextId := iid + 1,
          instances := s.instances ++
            [⟨iid, netId, instanceType, machineImage, sgId, tier, bootScript⟩],
          phases := s.phases ++ [(iid, Phase.declared)] })

/-- Modelled from the spec: `createLoadBalancer(network, internal, crossZone)`;
the owning network must already exist. -/
def createLoadBalancer (s : AssemblyState) (netId : Nat)
    (internetFacing crossZoneEnabled : Bool) : Except AsmError (Nat × AssemblyState) :=
  if s.finalized then .error .immutableStateError
  else match findNetwork s netId with
  | none => .error .referenceError
  | some _ =>
    let lid := s.nextId
    .ok (lid, { s with
      nextId := lid + 1,
      loadBalancers := s.loadBalancers ++
        [⟨lid, netId, internetFacing, crossZoneEnabled, []⟩],
      phases := s.phases ++ [(lid, Phase.declared)] })

/-- Modelled from the spec: `addListener(lb, port) → Listener`. -/
def addListener (s : AssemblyState) (lbId : Nat) (port : Nat) :
    Except AsmError (Nat × AssemblyState) :=
  if phaseOf s lbId = some Phase.finalized then .error .immutableStateError
  else match findLoadBalancer s lbId with
  | none => .error .referenceError
  | some _ =>
    let lid := s.nextId
    .ok (lid, { s with
      nextId := lid + 1,
      loadBalancers := s.loadBalancers.map
        (fun l => if l.id == lbId then { l with listenerIds := l.listenerIds ++ [lid] } else l),
      listeners := s.listeners ++ [⟨lid, lbId, port, none⟩],
      phases := s.phases ++ [(lid, Phase.declared)] })

/-- Modelled from the spec: `addTargetGroup(listener, port, targets,
healthCheck) → TargetGroup`. An empty target list is a `ConfigError`; the
health-check policy is stored as declared. -/
def addTargetGroup (s : AssemblyState) (listenerId : Nat) (port : Nat)
    (targetIds : List Nat) (healthCheck : HealthCheck) :
    Except AsmError (Nat × AssemblyState) :=
  if phaseOf s listenerId = some Phase.finalized then .error .immutableStateError
  else match findListener s listenerId with
  | none => .error .referenceError
  | some _ =>
    if targetIds.isEmpty then .error .configError
    else
      let tid := s.nextId
      .ok (tid, { s with
        nextId := tid + 1,
        listeners := s.listeners.map
          (fun l => if l.id == listenerId then { l with targetGroupId := some tid } else l),
        targetGroups := s.targetGroups ++ [⟨tid, listenerId, port, targetIds, healthCheck⟩],
        phases := s.phases ++ [(tid, Phase.declared)] })

/-- Modelled from the spec: `createBridge(targets)`; every target load
balancer must be fully defined before the bridge is created. -/
def createBridge (s : AssemblyState) (lbIds : List Nat) :
    Except AsmError (Nat × AssemblyState) :=
  if s.finalized then .error .immutableStateError
  else if !(lbIds.all (fun i => (findLoadBalancer s i).isSome)) then .error .referenceError
  else
    let bid := s.nextId
    .ok (bid, { s with
      nextId := bid + 1,
      bridges := s.bridges ++ [⟨bid, lbIds⟩],
      phases := s.phases ++ [(bid, Phase.declared)] })

/-- Modelled from the spec: `createProxyRoute(bridge, backendAddressSource,
httpMethod)`. Fails with `ReferenceError` when the bridge is absent or its
target load balancer was never created; otherwise the route's backend
address starts unresolved. -/
def createProxyRoute (s : AssemblyState) (bridgeId : Nat) (path httpMethod : String)
    (integrationType : IntegrationType) (connectionType : ConnectionType)
    (uriHead : String) : Except AsmError (Nat × AssemblyState) :=
  if s.finalized then .error .immutableStateError
  else match findBridge s bridgeId with
  | none => .error .referenceError
  | some b => match b.targetLbIds with
    | [] => .error .referenceError
    | lbId :: _ =>
      if !(b.targetLbIds.all (fun i => (findLoadBalancer s i).isSome)) then
        .error .referenceError
      else
        let rid := s.nextId
        .ok (rid, { s with
          nextId := rid + 1,
          proxyRoutes := s.proxyRoutes ++
            [⟨rid, path, httpMethod, integrationType, connectionType, bridgeId, lbId,
              uriHead, Deferred.unresolved⟩],
          phases := s.phases ++ [(rid, Phase.declared)] })

/-- A named result handed to the caller (source `CfnOutput`). -/
def addOutput (s : AssemblyState) (name : String) (val : OutputValue) :
    Except AsmError AssemblyState :=
  if s.finalized then .error .immutableStateError
  else .ok { s with outputs := s.outputs ++ [(name, val)] }

/-- Every cross-entity reference of the graph resolves to an entity that
exists in the graph. -/
def allRefsValid (s : AssemblyState) : Bool :=
  s.securityGroups.all (fun g => (findNetwork s g.networkId).isSome) &&
  s.instances.all (fun i => (findNetwork s i.networkId).isSome &&
    (findSecurityGroup s i.securityGroupId).isSome) &&
  s.loadBalancers.all (fun l => (findNetwork s l.networkId).isSome) &&
  s.listeners.all (fun l => (findLoadBalancer s l.loadBalancerId).isSome) &&
  s.targetGroups.all (fun t => (findListener s t.listenerId).isSome &&
    t.targetInstanceIds.all (fun i => (findInstance s i).isSome)) &&
  s.bridges.all (fun b => b.targetLbIds.all (fun i => (findLoadBalancer s i).isSome)) &&
  s.proxyRoutes.all (fun r => (findBridge s r.bridgeId).isSome &&
    (findLoadBalancer s r.backendLbId).isSome)

/-- Modelled from the spec: the linking step validates every cross-entity
reference, failing fast with `ReferenceError` on any dangling edge, and
advances declared entities to `Linked`. -/
def linkAll (s : AssemblyState) : Except AsmError AssemblyState :=
  if s.finalized then .error .immutableStateError
  else if !(allRefsValid s) then .error .referenceError
  else .ok { s with
      phases := s.phases.map
        (fun p => (p.1, if p.2 = Phase.declared then Phase.linked else p.2)) }

/-- Modelled from the spec: finalization hands the graph to the backend as
an immutable snapshot; every entity must already be `Linked`. -/
def finalize (s : AssemblyState) : Except AsmError AssemblyState :=
  if s.finalized then .error .immutableStateError
  else if !(s.phases.all (fun p => p.2 == Phase.linked)) then .error .referenceError
  else .ok { s with
    phases := s.phases.map (fun p => (p.1, Phase.finalized)),
    finalized := true }

/-- The AMI id for Ubuntu 20.04 LTS in us-east-1 (source line 36). -/
def amiId : String := "ami-0ba8562d785e35387"

/-- The boot commands installing nginx, stored verbatim
(source lines 66-72). -/
def nginxInstallScript : String :=
  "\n            # Install Nginx\n            sudo apt-get update\n            sudo apt-get install nginx -y\n            sudo systemctl start nginx\n        "

/-- The two subnet tiers requested by the stack (source lines 21-32). -/
def canonicalTiers : List TierConfig :=
  [⟨SubnetType.public, 24, "Public"⟩, ⟨SubnetType.privateWithEgress, 24, "Private"⟩]

/-- The health-check policy of the target group (source lines 87-93). -/
def canonicalHealthCheck : HealthCheck := ⟨"/", "80", "HTTP", 30, 10⟩

/-- The ingress rule allowing HTTP from any IPv4 source (source line 54). -/
def canonicalIngressRule : IngressRule := ⟨"0.0.0.0/0", "tcp", 80, "Allow HTTP traffic"⟩

/-- The whole assembly run of `NeelStack.__init__` followed by
`app.synth()`, transcribed statement by statement from the source. -/
def canonicalStack : Except AsmError AssemblyState := do
  let (vpcId, s1) ← createNetwork emptyState canonicalTiers
  let s2 ← addOutput s1 "AMI_ID" (OutputValue.literal amiId)
  let (sgId, s3) ← createSecurityGroup s2 vpcId "Allow HTTP inbound traffic" true
  let s4 ← addIngressRule s3 sgId canonicalIngressRule
  let (instId, s5) ← createInstance s4 vpcId SubnetType.privateWithEgress
    "t2.micro" amiId sgId nginxInstallScript
  let (nlbId, s6) ← createLoadBalancer s5 vpcId false true
  let (lisId, s7) ← addListener s6 nlbId 80
  let (_, s8) ← addTargetGroup s7 lisId 80 [instId] canonicalHealthCheck
  let (vlId, s9) ← createBridge s8 [nlbId]
  let (_, s10) ← createProxyRoute s9 vlId "mynlb" "ANY"
    IntegrationType.httpProxy ConnectionType.vpcLink "http://"
  let s11 ← addOutput s10 "ApiEndpoint" OutputValue.apiUrl
  let s12 ← linkAll s11
  finalize s12

/-- The finalized graph of the canonical run. -/
def canonicalFinal : AssemblyState := canonicalStack.toOption.getD emptyState

deriving instance DecidableEq for Except

example : canonicalStack = Except.ok canonicalFinal := by decide

/-- One assembly-time call, so properties can be stated uniformly over
every operation the assembly process performs. -/
inductive AsmOp
  | opCreateNetwork (cfg : List TierConfig)
  | opCreateSecurityGroup (netId : Nat) (description : String) (allowAllOutbound : Bool)
  | opAddIngressRule (gid : Nat) (rule : IngressRule)
  | opCreateInstance (netId : Nat) (tier : SubnetType)
      (instanceType machineImage : String) (sgId : Nat) (bootScript : String)
  | opCreateLoadBalancer (netId : Nat) (internetFacing crossZoneEnabled : Bool)
  | opAddListener (lbId port : Nat)
  | opAddTargetGroup (listenerId port : Nat) (targetIds : List Nat) (healthCheck : HealthCheck)
  | opCreateBridge (lbIds : List Nat)
  | opCreateProxyRoute (bridgeId : Nat) (path httpMethod : String)
      (integrationType : IntegrationType) (connectionType : ConnectionType) (uriHead : String)
  | opAddOutput (name : String) (val : OutputValue)
  | opLinkAll
  | opFinalize

/-- Interpretation of one operation on the assembly state. -/
def applyOp (op : AsmOp) (s : AssemblyState) : Except AsmError AssemblyState :=
  match op with
  | .opCreateNetwork cfg => (createNetwork s cfg).map Prod.snd
  | .opCreateSecurityGroup n d a => (createSecurityGroup s n d a).map Prod.snd
  | .opAddIngressRule g r => addIngressRule s g r
  | .opCreateInstance n t it im sg b => (createInstance s n t it im sg b).map Prod.snd
  | .opCreateLoadBalancer n i c => (createLoadBalancer s n i c).map Prod.snd
  | .opAddListener l p => (addListener s l p).map Prod.snd
  | .opAddTargetGroup l p t h => (addTargetGroup s l p t h).map Prod.snd
  | .opCreateBridge l => (createBridge s l).map Prod.snd
  | .opCreateProxyRoute b p m it ct u => (createProxyRoute s b p m it ct u).map Prod.snd
  | .opAddOutput n v => addOutput s n v
  | .opLinkAll => linkAll s
  | .opFinalize => finalize s

/-- The already-existing entity an operation mutates, when there is one. -/
def mutTarget : AsmOp → Option Nat
  | .opAddIngressRule g _ => some g
  | .opAddListener l _ => some l
  | .opAddTargetGroup l _ _ _ => some l
  | _ => none

/-- Phase lookup in a raw phase table. -/
def lookupPhase (l : List (Nat × Phase)) (i : Nat) : Option Phase :=
  (l.find? (fun p => p.1 == i)).map Prod.snd

theorem phaseOf_eq_lookup (s : AssemblyState) (i : Nat) :
    phaseOf s i = lookupPhase s.phases i := rfl

theorem lookupPhase_append (l l₂ : List (Nat × Phase)) (i : Nat) (p : Phase)
    (h : lookupPhase l i = some p) : lookupPhase (l ++ l₂) i = some p := by
  unfold lookupPhase at *
  rw [List.find?_append]
  cases hf : l.find? (fun x => x.1 == i) with
  | none => rw [hf] at h; cases h
  | some x => rw [hf] at h; simpa using h

theorem lookupPhase_mapSnd (l : List (Nat × Phase)) (f : Phase → Phase) (i : Nat) :
    lookupPhase (l.map (fun p => (p.1, f p.2))) i = (lookupPhase l i).map f := by
  induction l with
  | nil => rfl
  | cons a l ih =>
    obtain ⟨k, v⟩ := a
    cases hb : (k == i) with
    | true => simp [lookupPhase, List.find?, hb]
    | false =>
      simp only [lookupPhase, List.map_cons, List.find?, hb] at ih ⊢
      exact ih

/-- Phase tables only move forward: every entity present before is present
after, with a phase at least as advanced. -/
def PhasesMono (l l' : List (Nat × Phase)) : Prop :=
  ∀ i p, lookupPhase l i = some p → ∃ q, lookupPhase l' i = some q ∧ p.idx ≤ q.idx

theorem phasesMono_refl (l : List (Nat × Phase)) : PhasesMono l l :=
  fun _ p h => ⟨p, h, Nat.le_refl _⟩

theorem phasesMono_append (l l₂ : List (Nat × Phase)) : PhasesMono l (l ++ l₂) :=
  fun _ p h => ⟨p, lookupPhase_append _ _ _ _ h, Nat.le_refl _⟩

theorem phasesMono_mapSnd (l : List (Nat × Phase)) (f : Phase → Phase)
    (hf : ∀ p, p.idx ≤ (f p).idx) : PhasesMono l (l.map (fun p => (p.1, f p.2))) := by
  intro i p h
  refine ⟨f p, ?_, hf p⟩
  rw [lookupPhase_mapSnd, h]
  rfl

theorem createNetwork_ok_phases {s : AssemblyState} {cfg : List TierConfig}
    {r : Nat × AssemblyState} (h : createNetwork s cfg = .ok r) :
    r.2.phases = s.phases ++ [(s.nextId, Phase.declared)] := by
  unfold createNetwork at h
  split at h
  · cases h
  · split at h
    · cases h
    · split at h
      · cases h
      · split at h
        · cases h
        · cases h
          rfl

theorem createSecurityGroup_ok_phases {s : AssemblyState} {n : Nat} {d : String}
    {a : Bool} {r : Nat × AssemblyState} (h : createSecurityGroup s n d a = .ok r) :
    r.2.phases = s.phases ++ [(s.nextId, Phase.declared)] := by
  unfold createSecurityGroup at h
  split at h
  · cases h
  · split at h
    · cases h
    · cases h
      rfl

theorem addIngressRule_ok_phases {s : AssemblyState} {g : Nat} {rule : IngressRule}
    {s' : AssemblyState} (h : addIngressRule s g rule = .ok s') :
    s'.phases = s.phases := by
  unfold addIngressRule at h
  split at h
  · cases h
  · split at h
    · cases h
    · cases h
      rfl

theorem createInstance_ok_phases {s : AssemblyState} {n : Nat} {t : SubnetType}
    {it im : String} {g : Nat} {b : String} {r : Nat × AssemblyState}
    (h : createInstance s n t it im g b = .ok r) :
    r.2.phases = s.phases ++ [(s.nextId, Phase.declared)] := by
  unfold createInstance at h
  split at h
  · cases h
  · split at h
    · cases h
    · split at h
      · cases h
      · split at h
        · cases h
        · split at h
          · cases h
          · cases h
            rfl

theorem createLoadBalancer_ok_phases {s : AssemblyState} {n : Nat} {i c : Bool}
    {r : Nat × AssemblyState} (h : createLoadBalancer s n i c = .ok r) :
    r.2.phases = s.phases ++ [(s.nextId, Phase.declared)] := by
  unfold createLoadBalancer at h
  split at h
  · cases h
  · split at h
    · cases h
    · cases h
      rfl

theorem addListener_ok_phases {s : AssemblyState} {l p : Nat}
    {r : Nat × AssemblyState} (h : addListener s l p = .ok r) :
    r.2.phases = s.phases ++ [(s.nextId, Phase.declared)] := by
  unfold addListener at h
  split at h
  · cases h
  · split at h
    · cases h
    · cases h
      rfl

theorem addTargetGroup_ok_phases {s : AssemblyState} {l p : Nat} {t : List Nat}
    {hc : HealthCheck} {r : Nat × AssemblyState} (h : addTargetGroup s l p t hc = .ok r) :
    r.2.phases = s.phases ++ [(s.nextId, Phase.declared)] := by
  unfold addTargetGroup at h
  split at h
  · cases h
  · split at h
    · cases h
    · split at h
      · cases h
      · cases h
        rfl

theorem createBridge_ok_phases {s : AssemblyState} {l : List Nat}
    {r : Nat × AssemblyState} (h : createBridge s l = .ok r) :
    r.2.phases = s.phases ++ [(s.nextId, Phase.declared)] := by
  unfold createBridge at h
  split at h
  · cases h
  · split at h
    · cases h
    · cases h
      rfl

theorem createProxyRoute_ok_phases {s : AssemblyState} {b : Nat} {p m : String}
    {it : IntegrationType} {ct : ConnectionType} {u : String} {r : Nat × AssemblyState}
    (h : createProxyRoute s b p m it ct u = .ok r) :
    r.2.phases = s.phases ++ [(s.nextId, Phase.declared)] := by
  unfold createProxyRoute at h
  split at h
  · cases h
  · split at h
    · cases h
    · split at h
      · cases h
      · split at h
        · cases h
        · cases h
          rfl

theorem addOutput_ok_phases {s : AssemblyState} {n : String} {v : OutputValue}
    {s' : AssemblyState} (h : addOutput s n v = .ok s') :
    s'.phases = s.phases := by
  unfold addOutput at h
  split at h
  · cases h
  · cases h
    rfl

theorem linkAll_ok_phases {s s' : AssemblyState} (h : linkAll s = .ok s') :
    s'.phases = s.phases.map
      (fun p => (p.1, if p.2 = Phase.declared then Phase.linked else p.2)) := by
  unfold linkAll at h
  split at h
  · cases h
  · split at h
    · cases h
    · cases h
      rfl

theorem finalize_ok_phases {s s' : AssemblyState} (h : finalize s = .ok s') :
    s'.phases = s.phases.map (fun p => (p.1, Phase.finalized)) := by
  unfold finalize at h
  split at h
  · cases h
  · split at h
    · cases h
    · cases h
      rfl

theorem phase_idx_le_link (p : Phase) :
    p.idx ≤ (if p = Phase.declared then Phase.linked else p).idx := by
  cases p <;> simp [Phase.idx]

theorem phase_idx_le_finalized (p : Phase) : p.idx ≤ Phase.finalized.idx := by
  cases p <;> simp [Phase.idx]

theorem applyOp_mono (op : AsmOp) (s s' : AssemblyState)
    (h : applyOp op s = .ok s') : PhasesMono s.phases s'.phases := by
  cases op with
  | opCreateNetwork cfg =>
    simp only [applyOp] at h
    cases hr : createNetwork s cfg with
    | error e => rw [hr] at h; cases h
    | ok r =>
      rw [hr] at h
      simp only [Except.map] at h
      cases h
      rw [createNetwork_ok_phases hr]
      exact phasesMono_append _ _
  | opCreateSecurityGroup n d a =>
    simp only [applyOp] at h
    cases hr : createSecurityGroup s n d a with
    | error e => rw [hr] at h; cases h
    | ok r =>
      rw [hr] at h
      simp only [Except.map] at h
      cases h
      rw [createSecurityGroup_ok_phases hr]
      exact phasesMono_append _ _
  | opAddIngressRule g rule =>
    simp only [applyOp] at h
    rw [addIngressRule_ok_phases h]
    exact phasesMono_refl _
  | opCreateInstance n t it im g b =>
    simp only [applyOp] at h
    cases hr : createInstance s n t it im g b with
    | error e => rw [hr] at h; cases h
    | ok r =>
      rw [hr] at h
      simp only [Except.map] at h
      cases h
      rw [createInstance_ok_phases hr]
      exact phasesMono_append _ _
  | opCreateLoadBalancer n i c =>
    simp only [applyOp] at h
    cases hr : createLoadBalancer s n i c with
    | error e => rw [hr] at h; cases h
    | ok r =>
      rw [hr] at h
      simp only [Except.map] at h
      cases h
      rw [createLoadBalancer_ok_phases hr]
      exact phasesMono_append _ _
  | opAddListener l p =>
    simp only [applyOp] at h
    cases hr : addListener s l p with
    | error e => rw [hr] at h; cases h
    | ok r =>
      rw [hr] at h
      simp only [Except.map] at h
      cases h
      rw [addListener_ok_phases hr]
      exact phasesMono_append _ _
  | opAddTargetGroup l p t hc =>
    simp only [applyOp] at h
    cases hr : addTargetGroup s l p t hc with
    | error e => rw [hr] at h; cases h
    | ok r =>
      rw [hr] at h
      simp only [Except.map] at h
      cases h
      rw [addTargetGroup_ok_phases hr]
      exact phasesMono_append _ _
  | opCreateBridge l =>
    simp only [applyOp] at h
    cases hr : createBridge s l with
    | error e => rw [hr] at h; cases h
    | ok r =>
      rw [hr] at h
      simp only [Except.map] at h
      cases h
      rw [createBridge_ok_phases hr]
      exact phasesMono_append _ _
  | opCreateProxyRoute b pth m it ct u =>
    simp only [applyOp] at h
    cases hr : createProxyRoute s b pth m it ct u with
    | error e => rw [hr] at h; cases h
    | ok r =>
      rw [hr] at h
      simp only [Except.map] at h
      cases h
      rw [createProxyRoute_ok_phases hr]
      exact phasesMono_append _ _
  | opAddOutput n v =>
    simp only [applyOp] at h
    rw [addOutput_ok_phases h]
    exact phasesMono_refl _
  | opLinkAll =>
    simp only [applyOp] at h
    rw [linkAll_ok_phases h]
    exact phasesMono_mapSnd _ _ phase_idx_le_link
  | opFinalize =>
    simp only [applyOp] at h
    rw [finalize_ok_phases h]
    exact phasesMono_mapSnd _ _ (fun p => phase_idx_le_finalized p)

theorem mutation_after_finalize (op : AsmOp) (s : AssemblyState) (i : Nat)
    (hm : mutTarget op = some i) (hp : phaseOf s i = some Phase.finalized) :
    applyOp op s = .error .immutableStateError := by
  cases op with
  | opAddIngressRule g rule =>
    simp only [mutTarget] at hm
    cases hm
    simp [applyOp, addIngressRule, hp]
  | opAddListener l p =>
    simp only [mutTarget] at hm
    cases hm
    simp [applyOp, addListener, hp, Except.map]
  | opAddTargetGroup l p t hc =>
    simp only [mutTarget] at hm
    cases hm
    simp [applyOp, addTargetGroup, hp, Except.map]
  | opCreateNetwork cfg => cases hm
  | opCreateSecurityGroup n d a => cases hm
  | opCreateInstance n t it im g b => cases hm
  | opCreateLoadBalancer n ifc c => cases hm
  | opCreateBridge l => cases hm
  | opCreateProxyRoute b pth m it ct u => cases hm
  | opAddOutput n v => cases hm
  | opLinkAll => cases hm
  | opFinalize => cases hm

/-- The effective backend URI of a proxy route once the balancer's DNS name
is resolved: the literal head of the URI followed by the resolved name
(source line 113, the integration URI built from the balancer's DNS name). -/
def ProxyRoute.effectiveUri (r : ProxyRoute) (dns : String) : String := r.uriHead ++ dns

/-- C1: for the canonical input configuration (one public `/24` tier, one
private-with-egress `/24` tier, a security group allowing TCP 80 from any
IPv4 source, one instance in the private tier, an internal load balancer
with a port-80 listener and a target group with health check `/`, `80`,
HTTP, 30s interval, 10s timeout pointing at the instance, a bridge to the
balancer and a proxy route forwarding ANY to it), assembly succeeds, the
finalized graph holds exactly one entity of every type with every
cross-entity reference resolved, and the backend output carries exactly the
two named results: the machine-image id and the public proxy endpoint URL. -/
theorem canonical_assembly_end_to_end :
    canonicalStack = Except.ok canonicalFinal
    ∧ canonicalFinal.networks.length = 1
    ∧ canonicalFinal.securityGroups.length = 1
    ∧ canonicalFinal.instances.length = 1
    ∧ canonicalFinal.loadBalancers.length = 1
    ∧ canonicalFinal.listeners.length = 1
    ∧ canonicalFinal.targetGroups.length = 1
    ∧ canonicalFinal.bridges.length = 1
    ∧ canonicalFinal.proxyRoutes.length = 1
    ∧ allRefsValid canonicalFinal = true
    ∧ canonicalFinal.phases.all (fun p => p.2 == Phase.finalized) = true
    ∧ canonicalFinal.finalized = true
    ∧ canonicalFinal.outputs.map Prod.fst = ["AMI_ID", "ApiEndpoint"]
    ∧ canonicalFinal.outputs.map Prod.snd = [OutputValue.literal amiId, OutputValue.apiUrl] := by
  decide

/-- C9: in the one topology the program assembles, every target group's
health-check timeout (10s) is strictly below its interval (30s); the
program never constructs a health check with timeout ≥ interval. -/
theorem health_check_timeout_lt_interval :
    canonicalStack = Except.ok canonicalFinal
    ∧ canonicalFinal.targetGroups.all
        (fun tg => decide (tg.healthCheck.timeoutSecs < tg.healthCheck.intervalSecs)) = true
    ∧ canonicalFinal.targetGroups.map TargetGroup.healthCheck = [canonicalHealthCheck] := by
  decide

/-- C10: the canonical run's single proxy route sits at resource path
`mynlb` under the API root, matches method `ANY` as an HTTP proxy over the
VPC-link connection, and its backend URI is exactly `http://` followed by
the balancer's DNS name — never an `https://` URI. -/
theorem proxy_route_shape :
    canonicalFinal.proxyRoutes.map
      (fun r => (r.path, r.httpMethod, r.integrationType, r.connectionType, r.uriHead))
      = [("mynlb", "ANY", IntegrationType.httpProxy, ConnectionType.vpcLink, "http://")]
    ∧ (∀ dns : String, canonicalFinal.proxyRoutes.map (fun r => r.effectiveUri dns)
        = ["http://" ++ dns])
    ∧ (∀ dns : String, ∀ t : List Char,
        "https://".data ++ t ≠ ("http://" ++ dns).data) := by
  refine ⟨by decide, fun dns => rfl, ?_⟩
  intro dns t ht
  rw [String.data_append] at ht
  have h1 : ("https://".data ++ t)[4]? = some 's' := by
    rw [List.getElem?_append_left (by decide)]
    rfl
  have h2 : ("http://".data ++ dns.data)[4]? = some ':' := by
    rw [List.getElem?_append_left (by decide)]
    rfl
  rw [ht] at h1
  exact absurd (h1.symm.trans h2) (by decide)

/-- Instantiation of `proxy_route_shape` at a concrete DNS name. -/
theorem proxy_route_shape_witness :
    canonicalFinal.proxyRoutes.map (fun r => r.effectiveUri "nlb.internal")
      = ["http://" ++ "nlb.internal"] :=
  proxy_route_shape.2.1 "nlb.internal"

theorem createNetwork_ok_spec {s : AssemblyState} {cfg : List TierConfig}
    {r : Nat × AssemblyState} (h : createNetwork s cfg = .ok r) :
    r.2.networks = s.networks ++
      [⟨s.nextId, vpcCidrBase, vpcCidrSize, assignTiers vpcCidrBase cfg⟩]
    ∧ cfg.isEmpty = false
    ∧ cfg.all (fun t => maskValid t.cidrMask) = true
    ∧ totalTierSize cfg ≤ vpcCidrSize := by
  unfold createNetwork at h
  split at h
  · cases h
  · split at h
    · cases h
    · rename_i h2
      split at h
      · cases h
      · rename_i h3
        split at h
        · cases h
        · rename_i h4
          cases h
          refine ⟨rfl, ?_, ?_, ?_⟩
          · simpa using h2
          · simpa using h3
          · simpa using h4

/-- C3: for every tier configuration accepted by `createNetwork`, the
address ranges of the resulting network's subnet tiers are pairwise
disjoint, each contained in the network's address block, and the tiers
appear in declaration order. -/
theorem network_tier_ranges (s : AssemblyState) (cfg : List TierConfig)
    (nid : Nat) (s' : AssemblyState) (h : createNetwork s cfg = .ok (nid, s'))
    (net : Network) (hnet : s'.networks.getLast? = some net) :
    net.tiers.Pairwise (fun a b =>
      a.rangeStart + a.rangeSize ≤ b.rangeStart ∨ b.rangeStart + b.rangeSize ≤ a.rangeStart)
    ∧ (∀ t ∈ net.tiers, net.cidrBase ≤ t.rangeStart ∧
        t.rangeStart + t.rangeSize ≤ net.cidrBase + net.cidrSize)
    ∧ net.tiers.map SubnetTier.config = cfg := by
  obtain ⟨hn, _, _, ht⟩ := createNetwork_ok_spec h
  rw [hn, List.getLast?_concat] at hnet
  cases hnet
  refine ⟨?_, ?_, assignTiers_map_config _ _⟩
  · exact (assignTiers_chain vpcCidrBase cfg).imp (fun hab => Or.inl hab)
  · intro t hmem
    dsimp only at hmem ⊢
    refine ⟨assignTiers_start_le _ _ t hmem, ?_⟩
    have := assignTiers_range_le vpcCidrBase cfg t hmem
    omega

def demoNetResult : Nat × AssemblyState :=
  (createNetwork emptyState canonicalTiers).toOption.getD (0, emptyState)

def demoNet : Network := demoNetResult.2.networks.getLast?.getD ⟨0, 0, 0, []⟩

/-- Instantiation of `network_tier_ranges` on the canonical tier list. -/
theorem network_tier_ranges_witness :
    demoNet.tiers.Pairwise (fun a b =>
      a.rangeStart + a.rangeSize ≤ b.rangeStart ∨ b.rangeStart + b.rangeSize ≤ a.rangeStart)
    ∧ (∀ t ∈ demoNet.tiers, demoNet.cidrBase ≤ t.rangeStart ∧
        t.rangeStart + t.rangeSize ≤ demoNet.cidrBase + demoNet.cidrSize)
    ∧ demoNet.tiers.map SubnetTier.config = canonicalTiers :=
  network_tier_ranges emptyState canonicalTiers demoNetResult.1 demoNetResult.2
    (by decide) demoNet (by decide)

/-- A tier configuration is valid when it is non-empty, every mask lies in
`[16, 28]`, and the requested tiers fit the network's address block. -/
def validTierConfig (cfg : List TierConfig) : Prop :=
  cfg ≠ [] ∧ (∀ t ∈ cfg, 16 ≤ t.cidrMask ∧ t.cidrMask ≤ 28)
    ∧ totalTierSize cfg ≤ vpcCidrSize

theorem validTierConfig_iff (cfg : List TierConfig) :
    validTierConfig cfg ↔ (cfg.isEmpty = false
      ∧ cfg.all (fun t => maskValid t.cidrMask) = true
      ∧ totalTierSize cfg ≤ vpcCidrSize) := by
  unfold validTierConfig
  constructor
  · rintro ⟨h1, h2, h3⟩
    refine ⟨?_, ?_, h3⟩
    · cases hc : cfg.isEmpty
      · rfl
      · exact absurd (List.isEmpty_iff.mp hc) h1
    · rw [List.all_eq_true]
      intro t htm
      have := h2 t htm
      simp [maskValid]
      omega
  · rintro ⟨h1, h2, h3⟩
    refine ⟨?_, ?_, h3⟩
    · intro hc
      rw [hc] at h1
      cases h1
    · intro t htm
      have := List.all_eq_true.mp h2 t htm
      simp [maskValid] at this
      omega

/-- C5 (amended): while assembly is open, `createNetwork` fails with
`ConfigError` exactly when the configuration is invalid — an empty tier
list, a mask outside `[16, 28]`, or tiers exceeding the network's address
block — and returns a network exactly on valid configurations. -/
theorem createNetwork_config_error_iff (s : AssemblyState) (cfg : List TierConfig)
    (hfin : s.finalized = false) :
    (createNetwork s cfg = .error .configError ↔ ¬ validTierConfig cfg)
    ∧ ((∃ r, createNetwork s cfg = .ok r) ↔ validTierConfig cfg) := by
  have hfin' : ¬ (s.finalized = true) := by rw [hfin]; simp
  by_cases h1 : cfg.isEmpty = true
  · have hv : ¬ validTierConfig cfg := by
      rw [validTierConfig_iff]
      rintro ⟨ha, _, _⟩
      rw [h1] at ha
      cases ha
    have herr : createNetwork s cfg = .error .configError := by
      unfold createNetwork
      rw [if_neg hfin', if_pos h1]
    refine ⟨⟨fun _ => hv, fun _ => herr⟩, ?_, fun hvv => absurd hvv hv⟩
    rintro ⟨r, hr⟩
    rw [herr] at hr
    cases hr
  · by_cases h2 : cfg.all (fun t => maskValid t.cidrMask) = true
    · by_cases h3 : totalTierSize cfg ≤ vpcCidrSize
      · have hv : validTierConfig cfg := by
          rw [validTierConfig_iff]
          exact ⟨by simpa using h1, h2, h3⟩
        have hok : createNetwork s cfg = .ok (s.nextId, { s with
            nextId := s.nextId + 1,
            networks := s.networks ++
              [⟨s.nextId, vpcCidrBase, vpcCidrSize, assignTiers vpcCidrBase cfg⟩],
            phases := s.phases ++ [(s.nextId, Phase.declared)] }) := by
          unfold createNetwork
          rw [if_neg hfin', if_neg h1, if_neg (by simp [h2]), if_neg (by simp [h3])]
        refine ⟨⟨?_, fun hnv => absurd hv hnv⟩, fun _ => hv, fun _ => ⟨_, hok⟩⟩
        intro he
        rw [hok] at he
        cases he
      · have hv : ¬ validTierConfig cfg := by
          rw [validTierConfig_iff]
          rintro ⟨_, _, hc⟩
          exact h3 hc
        have herr : createNetwork s cfg = .error .configError := by
          unfold createNetwork
          rw [if_neg hfin', if_neg h1, if_neg (by simp [h2]), if_pos (by simpa using h3)]
        refine ⟨⟨fun _ => hv, fun _ => herr⟩, ?_, fun hvv => absurd hvv hv⟩
        rintro ⟨r, hr⟩
        rw [herr] at hr
        cases hr
    · have hv : ¬ validTierConfig cfg := by
        rw [validTierConfig_iff]
        rintro ⟨_, hb, _⟩
        exact h2 hb
      have herr : createNetwork s cfg = .error .configError := by
        unfold createNetwork
        rw [if_neg hfin', if_neg h1, if_pos (by simpa using h2)]
      refine ⟨⟨fun _ => hv, fun _ => herr⟩, ?_, fun hvv => absurd hvv hv⟩
      rintro ⟨r, hr⟩
      rw [herr] at hr
      cases hr

/-- C5 counterexample: two public tiers of mask 16 form a non-empty
configuration with every mask inside `[16, 28]`, yet `createNetwork`
rejects it (two `/16` tiers cannot fit the `/16` network block), so a valid
mask range and a non-empty tier list do not suffice for success. -/
theorem createNetwork_iff_cex :
    (([⟨SubnetType.public, 16, "A"⟩, ⟨SubnetType.public, 16, "B"⟩] : List TierConfig) ≠ []
      ∧ ∀ t ∈ ([⟨SubnetType.public, 16, "A"⟩, ⟨SubnetType.public, 16, "B"⟩] : List TierConfig),
          16 ≤ t.cidrMask ∧ t.cidrMask ≤ 28)
    ∧ emptyState.finalized = false
    ∧ createNetwork emptyState
        [⟨SubnetType.public, 16, "A"⟩, ⟨SubnetType.public, 16, "B"⟩]
      = .error .configError := by
  decide

/-- Instantiation of `createNetwork_config_error_iff` on the canonical
tier list. -/
theorem createNetwork_config_error_iff_witness :
    ∃ r, createNetwork emptyState canonicalTiers = .ok r :=
  (createNetwork_config_error_iff emptyState canonicalTiers rfl).2.mpr
    ⟨by decide, by decide, by decide⟩

/-- C4: with the listener present and not finalized, creating a target
group from an empty target list fails with `ConfigError` at assembly time;
from a non-empty list it succeeds and the stored health-check policy,
port and targets equal the inputs exactly. -/
theorem addTargetGroup_spec (s : AssemblyState) (lid port : Nat)
    (targetIds : List Nat) (hc : HealthCheck) (l : Listener)
    (hl : findListener s lid = some l)
    (hph : phaseOf s lid ≠ some Phase.finalized) :
    (targetIds = [] → addTargetGroup s lid port targetIds hc = .error .configError)
    ∧ (targetIds ≠ [] → ∃ r, addTargetGroup s lid port targetIds hc = .ok r
        ∧ ∃ tg, r.2.targetGroups.getLast? = some tg
          ∧ tg.healthCheck = hc ∧ tg.port = port ∧ tg.targetInstanceIds = targetIds) := by
  constructor
  · intro he
    subst he
    unfold addTargetGroup
    rw [if_neg hph, hl]
    rfl
  · intro hne
    have hemp : targetIds.isEmpty = false := by
      cases targetIds
      · exact absurd rfl hne
      · rfl
    have hok : addTargetGroup s lid port targetIds hc = .ok (s.nextId, { s with
        nextId := s.nextId + 1,
        listeners := s.listeners.map
          (fun x => if x.id == lid then { x with targetGroupId := some s.nextId } else x),
        targetGroups := s.targetGroups ++ [⟨s.nextId, lid, port, targetIds, hc⟩],
        phases := s.phases ++ [(s.nextId, Phase.declared)] }) := by
      unfold addTargetGroup
      rw [if_neg hph, hl, hemp]
      rfl
    exact ⟨_, hok, ⟨s.nextId, lid, port, targetIds, hc⟩, List.getLast?_concat _, rfl, rfl, rfl⟩

def demoListenerState : AssemblyState :=
  { emptyState with listeners := [⟨3, 9, 80, none⟩] }

/-- Instantiation of `addTargetGroup_spec`: the empty target list is
rejected, a singleton target list round-trips the health check. -/
theorem addTargetGroup_spec_witness :
    (addTargetGroup demoListenerState 3 80 [] canonicalHealthCheck = .error .configError)
    ∧ ∃ r, addTargetGroup demoListenerState 3 80 [4] canonicalHealthCheck = .ok r
        ∧ ∃ tg, r.2.targetGroups.getLast? = some tg
          ∧ tg.healthCheck = canonicalHealthCheck ∧ tg.port = 80
          ∧ tg.targetInstanceIds = [4] :=
  ⟨(addTargetGroup_spec demoListenerState 3 80 [] canonicalHealthCheck
      ⟨3, 9, 80, none⟩ (by decide) (by decide)).1 rfl,
   (addTargetGroup_spec demoListenerState 3 80 [4] canonicalHealthCheck
      ⟨3, 9, 80, none⟩ (by decide) (by decide)).2 (by decide)⟩

theorem findSG_addRule (l : List SecurityGroup) (gid : Nat) (g : SecurityGroup)
    (rule : IngressRule) (h : l.find? (fun x => x.id == gid) = some g) :
    (addRuleToGroups l gid rule).find? (fun x => x.id == gid)
      = some { g with ingressRules := g.ingressRules ++ [rule] } := by
  induction l with
  | nil => cases h
  | cons a l ih =>
    cases ha : (a.id == gid) with
    | true =>
      simp only [List.find?, ha] at h
      cases h
      simp [addRuleToGroups, List.find?, ha]
    | false =>
      simp only [List.find?, ha] at h
      simp [addRuleToGroups, List.find?, ha] at ih ⊢
      exact ih h

theorem addIngressRule_ok_of (s : AssemblyState) (gid : Nat) (rule : IngressRule)
    (g : SecurityGroup) (hg : findSecurityGroup s gid = some g)
    (hph : phaseOf s gid ≠ some Phase.finalized) :
    addIngressRule s gid rule = .ok { s with
      securityGroups := addRuleToGroups s.securityGroups gid rule } := by
  unfold addIngressRule
  rw [if_neg hph, hg]

/-- C6: `addIngressRule` on a group that was never created fails with
`ReferenceError`; on an existing, not-yet-finalized group it always
succeeds, and adding the same rule twice stores it twice — duplicates are
additive, never an error. -/
theorem addIngressRule_spec (s : AssemblyState) (gid : Nat) (rule : IngressRule) :
    ((findSecurityGroup s gid = none ∧ phaseOf s gid = none) →
      addIngressRule s gid rule = .error .referenceError)
    ∧ (∀ g, findSecurityGroup s gid = some g → phaseOf s gid ≠ some Phase.finalized →
      ∃ s' s'', addIngressRule s gid rule = .ok s'
        ∧ addIngressRule s' gid rule = .ok s''
        ∧ findSecurityGroup s' gid = some { g with ingressRules := g.ingressRules ++ [rule] }
        ∧ findSecurityGroup s'' gid
            = some { g with ingressRules := g.ingressRules ++ [rule, rule] }) := by
  constructor
  · rintro ⟨hf, hp⟩
    unfold addIngressRule
    rw [if_neg (show phaseOf s gid ≠ some Phase.finalized by rw [hp]; simp), hf]
  · intro g hg hph
    have h1 := addIngressRule_ok_of s gid rule g hg hph
    have hg1 : findSecurityGroup { s with
        securityGroups := addRuleToGroups s.securityGroups gid rule } gid
        = some { g with ingressRules := g.ingressRules ++ [rule] } :=
      findSG_addRule _ _ _ _ hg
    have hph1 : phaseOf { s with
        securityGroups := addRuleToGroups s.securityGroups gid rule } gid
        ≠ some Phase.finalized := hph
    have h2 := addIngressRule_ok_of _ gid rule _ hg1 hph1
    have hg2 := findSG_addRule _ gid _ rule hg1
    refine ⟨_, _, h1, h2, hg1, ?_⟩
    simpa [findSecurityGroup, List.append_assoc] using hg2

def demoSGState : AssemblyState :=
  { emptyState with securityGroups := [⟨2, 0, "Allow HTTP inbound traffic", true, []⟩] }

/-- Instantiation of `addIngressRule_spec`: a missing group is rejected and
an existing group accepts the same rule twice. -/
theorem addIngressRule_spec_witness :
    (addIngressRule demoSGState 99 canonicalIngressRule = .error .referenceError)
    ∧ ∃ s' s'', addIngressRule demoSGState 2 canonicalIngressRule = .ok s'
      ∧ addIngressRule s' 2 canonicalIngressRule = .ok s''
      ∧ findSecurityGroup s' 2
          = some ⟨2, 0, "Allow HTTP inbound traffic", true, [canonicalIngressRule]⟩
      ∧ findSecurityGroup s'' 2
          = some ⟨2, 0, "Allow HTTP inbound traffic", true,
              [canonicalIngressRule, canonicalIngressRule]⟩ :=
  ⟨(addIngressRule_spec demoSGState 99 canonicalIngressRule).1 ⟨by decide, by decide⟩,
   (addIngressRule_spec demoSGState 2 canonicalIngressRule).2
      ⟨2, 0, "Allow HTTP inbound traffic", true, []⟩ (by decide) (by decide)⟩

/-- C7: with assembly open and both referenced entities present,
`createInstance` fails with `ReferenceError` whenever the placement tier is
not one of the network's declared tiers or the security group belongs to a
different network; when both preconditions hold it succeeds and stores the
boot script verbatim, without validating its syntax. -/
theorem createInstance_spec (s : AssemblyState) (netId : Nat) (tier : SubnetType)
    (it im : String) (sgId : Nat) (boot : String) (net : Network) (sg : SecurityGroup)
    (hfin : s.finalized = false) (hnet : findNetwork s netId = some net)
    (hsg : findSecurityGroup s sgId = some sg) :
    ((tier ∉ net.tiers.map (fun t => t.config.subnetType) ∨ sg.networkId ≠ netId) →
      createInstance s netId tier it im sgId boot = .error .referenceError)
    ∧ (tier ∈ net.tiers.map (fun t => t.config.subnetType) → sg.networkId = netId →
      ∃ r, createInstance s netId tier it im sgId boot = .ok r
        ∧ r.2.instances.getLast? = some ⟨s.nextId, netId, it, im, sgId, tier, boot⟩) := by
  have hfin' : ¬ (s.finalized = true) := by rw [hfin]; simp
  constructor
  · intro hbad
    by_cases hmem : tier ∈ net.tiers.map (fun t => t.config.subnetType)
    · rcases hbad with hb | hb
      · exact absurd hmem hb
      · simp [createInstance, if_neg hfin', hnet, hsg, hmem, hb]
    · simp [createInstance, if_neg hfin', hnet, hsg, hmem]
  · intro hmem heq
    have hok : createInstance s netId tier it im sgId boot = .ok (s.nextId, { s with
        nextId := s.nextId + 1,
        instances := s.instances ++ [⟨s.nextId, netId, it, im, sgId, tier, boot⟩],
        phases := s.phases ++ [(s.nextId, Phase.declared)] }) := by
      simp [createInstance, if_neg hfin', hnet, hsg, hmem, heq]
    exact ⟨_, hok, List.getLast?_concat _⟩

def demoComputeState : AssemblyState :=
  { emptyState with
    networks := [⟨0, vpcCidrBase, vpcCidrSize, assignTiers vpcCidrBase canonicalTiers⟩],
    securityGroups := [⟨1, 0, "Allow HTTP inbound traffic", true, []⟩] }

/-- Instantiation of `createInstance_spec`: placement in the declared
private tier succeeds and keeps the nginx boot script verbatim. -/
theorem createInstance_spec_witness :
    ∃ r, createInstance demoComputeState 0 SubnetType.privateWithEgress
        "t2.micro" amiId 1 nginxInstallScript = .ok r
      ∧ r.2.instances.getLast? = some ⟨demoComputeState.nextId, 0, "t2.micro", amiId,
          1, SubnetType.privateWithEgress, nginxInstallScript⟩ :=
  (createInstance_spec demoComputeState 0 SubnetType.privateWithEgress
      "t2.micro" amiId 1 nginxInstallScript
      ⟨0, vpcCidrBase, vpcCidrSize, assignTiers vpcCidrBase canonicalTiers⟩
      ⟨1, 0, "Allow HTTP inbound traffic", true, []⟩
      rfl (by decide) (by decide)).2 (by decide) rfl

/-- C2: `createProxyRoute` on a bridge that is absent or whose target load
balancer was never created fails with `ReferenceError`; on a valid bridge
it succeeds and the route's backend address is a deferred value —
unresolved at creation, reading it before resolution fails with
`ReferenceError`, it resolves exactly once to the supplied concrete
address, and it is immutable after resolution. -/
theorem createProxyRoute_deferred (s : AssemblyState) (bid : Nat) (pth m : String)
    (it : IntegrationType) (ct : ConnectionType) (u : String)
    (hfin : s.finalized = false) :
    (findBridge s bid = none →
      createProxyRoute s bid pth m it ct u = .error .referenceError)
    ∧ (∀ b, findBridge s bid = some b →
        (b.targetLbIds = [] ∨ ∃ j ∈ b.targetLbIds, findLoadBalancer s j = none) →
        createProxyRoute s bid pth m it ct u = .error .referenceError)
    ∧ (∀ b, findBridge s bid = some b → b.targetLbIds ≠ [] →
        (∀ j ∈ b.targetLbIds, (findLoadBalancer s j).isSome) →
        ∃ r, createProxyRoute s bid pth m it ct u = .ok r
          ∧ r.2.proxyRoutes.getLast?.map ProxyRoute.backendDns = some Deferred.unresolved)
    ∧ Deferred.read (Deferred.unresolved : Deferred String) = .error .referenceError
    ∧ (∀ v : String, Deferred.resolve Deferred.unresolved v = Deferred.resolved v)
    ∧ (∀ v : String, Deferred.read (Deferred.resolved v) = .ok v)
    ∧ (∀ v w : String, Deferred.resolve (Deferred.resolved v) w = Deferred.resolved v) := by
  have hfin' : ¬ (s.finalized = true) := by rw [hfin]; simp
  refine ⟨?_, ?_, ?_, rfl, fun v => rfl, fun v => rfl, fun v w => rfl⟩
  · intro hb
    simp [createProxyRoute, if_neg hfin', hb]
  · intro b hb hbad
    obtain ⟨bi, lbs⟩ := b
    cases lbs with
    | nil => simp [createProxyRoute, if_neg hfin', hb]
    | cons x xs =>
      rcases hbad with hbe | ⟨j, hj, hjn⟩
      · cases hbe
      · have hall : (x :: xs).all (fun i => (findLoadBalancer s i).isSome) = false := by
          rw [List.all_eq_false]
          exact ⟨j, hj, by simp [hjn]⟩
        simp [createProxyRoute, if_neg hfin', hb, hall]
  · intro b hb hne hall
    obtain ⟨bi, lbs⟩ := b
    cases lbs with
    | nil => exact absurd rfl hne
    | cons x xs =>
      have hallb : (x :: xs).all (fun i => (findLoadBalancer s i).isSome) = true := by
        rw [List.all_eq_true]
        exact fun j hj => hall j hj
      have hok : createProxyRoute s bid pth m it ct u = .ok (s.nextId, { s with
          nextId := s.nextId + 1,
          proxyRoutes := s.proxyRoutes ++
            [⟨s.nextId, pth, m, it, ct, bid, x, u, Deferred.unresolved⟩],
          phases := s.phases ++ [(s.nextId, Phase.declared)] }) := by
        simp [createProxyRoute, if_neg hfin', hb, hallb]
      refine ⟨_, hok, ?_⟩
      rw [show ({ s with
          nextId := s.nextId + 1,
          proxyRoutes := s.proxyRoutes ++
            [⟨s.nextId, pth, m, it, ct, bid, x, u, Deferred.unresolved⟩],
          phases := s.phases ++ [(s.nextId, Phase.declared)] } : AssemblyState).proxyRoutes
        = s.proxyRoutes ++ [⟨s.nextId, pth, m, it, ct, bid, x, u, Deferred.unresolved⟩]
        from rfl, List.getLast?_concat]
      rfl

def demoBridgeState : AssemblyState :=
  { emptyState with
    loadBalancers := [⟨5, 0, false, true, []⟩],
    bridges := [⟨7, [5]⟩] }

/-- Instantiation of `createProxyRoute_deferred`: a dangling bridge id is
rejected; the valid bridge yields a route whose backend starts
unresolved. -/
theorem createProxyRoute_deferred_witness :
    (createProxyRoute demoBridgeState 99 "mynlb" "ANY"
        IntegrationType.httpProxy ConnectionType.vpcLink "http://"
      = .error .referenceError)
    ∧ ∃ r, createProxyRoute demoBridgeState 7 "mynlb" "ANY"
        IntegrationType.httpProxy ConnectionType.vpcLink "http://" = .ok r
      ∧ r.2.proxyRoutes.getLast?.map ProxyRoute.backendDns = some Deferred.unresolved :=
  ⟨(createProxyRoute_deferred demoBridgeState 99 "mynlb" "ANY" IntegrationType.httpProxy
      ConnectionType.vpcLink "http://" rfl).1 (by decide),
   (createProxyRoute_deferred demoBridgeState 7 "mynlb" "ANY" IntegrationType.httpProxy
      ConnectionType.vpcLink "http://" rfl).2.2.1 ⟨7, [5]⟩ (by decide) (by decide)
      (by decide)⟩

/-- C8: entities only move forward through
`Declared → Linked → Finalized` — every successful operation leaves every
entity's phase at least where it was — and any mutation of an entity that
is already finalized fails with `ImmutableStateError` (so the state, which
the operation returns only on success, is unchanged). -/
theorem entity_state_machine (op : AsmOp) (s : AssemblyState) :
    (∀ s', applyOp op s = .ok s' → ∀ i p, phaseOf s i = some p →
      ∃ q, phaseOf s' i = some q ∧ p.idx ≤ q.idx)
    ∧ (∀ i, mutTarget op = some i → phaseOf s i = some Phase.finalized →
      applyOp op s = .error .immutableStateError) :=
  ⟨fun s' h i p hp => applyOp_mono op s s' h i p hp,
   fun i hm hp => mutation_after_finalize op s i hm hp⟩

def demoPhaseState : AssemblyState := { emptyState with phases := [(0, Phase.declared)] }

def demoPhaseLinked : AssemblyState := { emptyState with phases := [(0, Phase.linked)] }

/-- Instantiation of `entity_state_machine`: linking advances the declared
entity, and mutating the finalized security group of the canonical run is
rejected. -/
theorem entity_state_machine_witness :
    (∃ q, phaseOf demoPhaseLinked 0 = some q ∧ Phase.declared.idx ≤ q.idx)
    ∧ applyOp (AsmOp.opAddIngressRule 1 canonicalIngressRule) canonicalFinal
        = .error .immutableStateError :=
  ⟨(entity_state_machine AsmOp.opLinkAll demoPhaseState).1 demoPhaseLinked
      (by decide) 0 Phase.declared (by decide),
   (entity_state_machine (AsmOp.opAddIngressRule 1 canonicalIngressRule) canonicalFinal).2
      1 rfl (by decide)⟩
